import Mathlib

/-!
Verification of the Koto electrum header-chain core and transaction codec.

The Python sources (electrum/blockchain.py, electrum/transaction.py) are
shallowly embedded here.  Bytes are modelled as natural numbers and byte
strings as `List Nat`; Python's unbounded integers are `Int` (or `Nat` where
the source value is provably non-negative); Python floor division `//` is
`Int.fdiv` and `%` on a positive modulus is `Int.emod`.  Hex strings that the
source manipulates only in whole character pairs are modelled at byte level
(one list element per hex pair).  External cryptographic primitives
(sha256d, BLAKE2b, yescrypt) and helpers that live in repository modules not
present under src/ are taken as abstract function parameters or are modelled
from the spec, as noted at each definition.

Network constants (SAPLING_HEIGHT, the checkpoint list length, TESTNET) come
from constants.py, which is not part of the sources; they are ordinary
parameters of the embedded functions.
-/

namespace Koto

/-- Value of a little-endian byte list (int.from_bytes(s, 'little')). -/
def leNum : List Nat → Nat
  | [] => 0
  | b :: bs => b + 256 * leNum bs

/-- Value of a big-endian byte list (int.from_bytes(s, 'big')). -/
def beNum (l : List Nat) : Nat := leNum l.reverse

/-- Modelled from the spec: bitcoin.int_to_hex(v, k) renders v as k
little-endian bytes (in hex); we keep the byte list. -/
def toLE : Nat → Nat → List Nat
  | 0, _ => []
  | k + 1, v => (v % 256) :: toLE k (v / 256)

/-- Big-endian k-byte rendering of a number, as produced by the
"%064x" format (k = 32) read in whole hex pairs. -/
def toBE : Nat → Nat → List Nat
  | 0, _ => []
  | k + 1, v => toBE k (v / 256) ++ [v % 256]

/-- Python slice l[a:b] (clipped, never failing). -/
def pyslice (a b : Nat) (l : List Nat) : List Nat := (l.drop a).take (b - a)

/-- HEADER_SIZE = 80 bytes. -/
def HEADER_SIZE : Int := 80

/-- HEADER_SIZE_SAPLING = 112 bytes. -/
def HEADER_SIZE_SAPLING : Int := 112

/-- MAX_TARGET from blockchain.py. -/
def MAX_TARGET : Nat :=
  0x0007ffffffffffffffffffffffffffffffffffffffffffffffffffffffffffff

/-- Block header dictionary.  Hash-valued fields hold the byte-reversed
(display order) bytes, matching the hex ids the source stores
(hash_encode reverses the wire bytes).  block_height is the logical height
attached at deserialization time. -/
structure Header where
  version : Nat
  prev_block_hash : List Nat
  merkle_root : List Nat
  timestamp : Nat
  bits : Nat
  nonce : Nat
  finalsapling_root : Option (List Nat)
  block_height : Int
  deriving Repr, DecidableEq

/-- serialize_header from blockchain.py.  rev_hex turns a display-order hash
back into wire order, i.e. reverses the byte list.  Accessing the missing
finalsapling_root key for version >= 5 raises (KeyError), modelled as error. -/
def serialize_header (h : Header) : Except String (List Nat) :=
  let s := toLE 4 h.version ++ h.prev_block_hash.reverse ++ h.merkle_root.reverse
      ++ toLE 4 h.timestamp ++ toLE 4 h.bits ++ toLE 4 h.nonce
  if 5 ≤ h.version then
    match h.finalsapling_root with
    | some r => .ok (s ++ r.reverse)
    | none => .error "KeyError: finalsapling_root"
  else .ok s

/-- deserialize_header from blockchain.py.  sapling_height is
constants.net.SAPLING_HEIGHT.  Note the source reads s[80:112] whenever the
parsed version is >= 5; Python slicing clips, which pyslice reproduces. -/
def deserialize_header (sapling_height : Int) (s : List Nat) (height : Int) :
    Except String Header :=
  if s.isEmpty then .error "Invalid header"
  else if height < sapling_height ∧ s.length ≠ 80 then .error "Invalid header length"
  else if ¬ height < sapling_height ∧ s.length ≠ 112 then .error "Invalid header length"
  else
    let version := leNum (pyslice 0 4 s)
    .ok { version := version
          prev_block_hash := (pyslice 4 36 s).reverse
          merkle_root := (pyslice 36 68 s).reverse
          timestamp := leNum (pyslice 68 72 s)
          bits := leNum (pyslice 72 76 s)
          nonce := leNum (pyslice 76 80 s)
          finalsapling_root := if 5 ≤ version then some (pyslice 80 112 s).reverse else none
          block_height := height }

/-- hash_raw_header: display-order id of serialized header bytes.
sha256d is the external double-SHA256, abstract here; hash_encode reverses. -/
def hash_raw_header (sha256d : List Nat → List Nat) (s : List Nat) : List Nat :=
  (sha256d s).reverse

/-- hash_header on a present header with a present prev_block_hash (the
None branches of the source concern absent dict entries, which the Header
structure always carries). -/
def hash_header (sha256d : List Nat → List Nat) (h : Header) :
    Except String (List Nat) :=
  (serialize_header h).map (hash_raw_header sha256d)

/-- get_delta_bytes from blockchain.py: byte offset of height within the
piecewise fixed-record layout. -/
def get_delta_bytes (sapling_height height : Int) : Int :=
  if height < sapling_height then height * HEADER_SIZE
  else sapling_height * HEADER_SIZE + (height - sapling_height) * HEADER_SIZE_SAPLING

/-- update_size from blockchain.py: the _size recomputed from the file size
in bytes.  Python // is floor division, Int.fdiv. -/
def update_size (sapling_height forkpoint size : Int) : Int :=
  if sapling_height ≤ forkpoint then Int.fdiv size HEADER_SIZE_SAPLING
  else if size ≤ HEADER_SIZE * (sapling_height - forkpoint) then Int.fdiv size HEADER_SIZE
  else (sapling_height - forkpoint) +
    Int.fdiv (size - (sapling_height - forkpoint) * HEADER_SIZE) HEADER_SIZE_SAPLING

/-- Piecewise record length stated by the spec: n consecutive records starting
at height f occupy 80 bytes each below sapling_height and 112 bytes each at or
above it. -/
def spec_file_len (sapling_height : Int) : Int → Nat → Int
  | _, 0 => 0
  | f, n + 1 => (if f < sapling_height then 80 else 112) + spec_file_len sapling_height (f + 1) n

/-- bits_to_target from blockchain.py. -/
def bits_to_target (bits : Nat) : Except String Nat :=
  let bitsN := (bits >>> 24) &&& 0xff
  if ¬ (0x03 ≤ bitsN ∧ bitsN ≤ 0x1f) then
    .error "First part of bits should be in [0x03, 0x1f]"
  else
    let bitsBase := bits &&& 0xffffff
    if ¬ (0x8000 ≤ bitsBase ∧ bitsBase ≤ 0x7fffff) then
      .error "Second part of bits should be in [0x8000, 0x7fffff]"
    else .ok (bitsBase <<< (8 * (bitsN - 3)))

/-- Stripping loop of target_to_bits: drop a leading zero byte (a "00" hex
pair) while more than 3 bytes (6 hex chars) remain. -/
def strip00 : List Nat → List Nat
  | 0 :: rest => if 3 < rest.length + 1 then strip00 rest else 0 :: rest
  | l => l

/-- target_to_bits from blockchain.py, at byte level: ("%064x" % target)[2:]
is the 32-byte big-endian rendering with its first byte dropped; the loop
strips leading zero bytes; len(c)//2 counts bytes; c[:6] is the first three
bytes read big-endian. -/
def target_to_bits (target : Nat) : Nat :=
  let c := strip00 ((toBE 32 target).drop 1)
  let bitsN := c.length
  let bitsBase := beNum (c.take 3)
  if 0x800000 ≤ bitsBase then ((bitsN + 1) <<< 24) ||| (bitsBase >>> 8)
  else (bitsN <<< 24) ||| bitsBase

/-- verify_header from blockchain.py.  sha256d and yescrypt_pow (the
yescrypt.getPoWHash digest for given bytes and record size) are external
primitives, abstract here.  num_checkpoints is len(constants.net.CHECKPOINTS),
sapling_height and testnet the other network constants.  The pow-hash number
int.from_bytes(bfh(rev_hex(bh2u(digest))), 'big') is the big-endian value of
the reversed digest. -/
def verify_header (sha256d : List Nat → List Nat)
    (yescrypt_pow : List Nat → Nat → List Nat)
    (num_checkpoints : Nat) (sapling_height : Int) (testnet : Bool)
    (header : Header) (prev_hash : List Nat) (target : Nat)
    (expected_header_hash : Option (List Nat)) : Except String Unit := do
  let height := header.block_height
  if height = 20 ∨ height = 22 ∨ height = 26 then
    return ()
  let hh ← hash_header sha256d header
  if expected_header_hash.isSome ∧ expected_header_hash ≠ some hh then
    throw "hash mismatches with expected"
  let size : Nat := if sapling_height ≤ height then 112 else 80
  let sb ← serialize_header header
  let powhash := (yescrypt_pow sb size).reverse
  if prev_hash ≠ header.prev_block_hash then
    throw "prev hash mismatch"
  if (Int.emod height 2016 ≠ 0 ∧ Int.fdiv height 2016 < (num_checkpoints : Int)) ∨
      ((num_checkpoints : Int) * 2016 ≤ height ∧ height ≤ (num_checkpoints : Int) * 2016 + 24) then
    return ()
  if testnet then
    return ()
  let bits := target_to_bits target
  if bits ≠ header.bits then
    throw "bits mismatch"
  if target < beNum powhash then
    throw "insufficient proof of work"
  return ()

/-- In-memory view of a Blockchain for read_header: forkpoint, the cached
_size, the header file contents (none when the file does not exist), and the
parent chain. -/
inductive ChainT where
  | mk (forkpoint : Int) (size : Int) (file : Option (List Nat)) (parent : Option ChainT)

/-- Forkpoint of a chain. -/
def ChainT.forkpoint : ChainT → Int
  | .mk f _ _ _ => f

/-- Cached record count of a chain. -/
def ChainT.size : ChainT → Int
  | .mk _ s _ _ => s

/-- Header file of a chain. -/
def ChainT.file : ChainT → Option (List Nat)
  | .mk _ _ fl _ => fl

/-- Parent of a chain. -/
def ChainT.parent : ChainT → Option ChainT
  | .mk _ _ _ p => p

/-- height() = forkpoint + size - 1. -/
def ChainT.heightTop (c : ChainT) : Int := c.forkpoint + c.size - 1

/-- read_header from blockchain.py.  Delegation to an absent parent would be
a Python AttributeError; a missing file makes assert_headers_file_available
raise; a short read and an all-zero record are handled as in the source. -/
def read_header (sapling_height : Int) : ChainT → Int → Except String (Option Header)
  | .mk forkpoint size file parent, height =>
    if height < 0 then .ok none
    else if height < forkpoint then
      match parent with
      | some p => read_header sapling_height p height
      | none => .error "AttributeError: read_header on absent parent"
    else if (ChainT.mk forkpoint size file parent).heightTop < height then .ok none
    else
      let delta := height - forkpoint
      let offset : Int :=
        if height < sapling_height then delta * HEADER_SIZE
        else if sapling_height < forkpoint then delta * HEADER_SIZE_SAPLING
        else (height - sapling_height) * HEADER_SIZE_SAPLING +
          (sapling_height - forkpoint) * HEADER_SIZE
      let rsize : Nat := if height < sapling_height then 80 else 112
      match file with
      | none => .error "FileNotFoundError: cannot find headers file"
      | some data =>
        let h := pyslice offset.toNat (offset.toNat + rsize) data
        if h.length < rsize then .error "Expected to read a full header"
        else if h = List.replicate rsize 0 then .ok none
        else deserialize_header sapling_height h height

/-- Insertion into an ascending list, for modelling Python's list.sort(). -/
def ins_sorted (x : Nat) : List Nat → List Nat
  | [] => [x]
  | y :: ys => if x ≤ y then x :: y :: ys else y :: ins_sorted x ys

/-- Ascending sort modelling Python's list.sort(); on naturals the sorted
output is unique, so insertion sort agrees with the source's sort. -/
def sort_asc : List Nat → List Nat
  | [] => []
  | x :: xs => ins_sorted x (sort_asc xs)

/-- The source pattern "x = chain.get(p); if x is None: x = self.read_header(p)".
The persisted store behind read_header is abstracted as the lookup read_h. -/
def chain_or_stored (chain read_h : Int → Option Header) (p : Int) : Option Header :=
  match chain p with
  | some h => some h
  | none => read_h p

/-- Collection loop of get_median_timestamp: gather timestamps walking down
from pindex, at most fuel of them (fuel starts at nMedianTimeSpan = 11),
stopping at height 0; reading a missing header would dereference None
(AttributeError). -/
def median_collect (lookup : Int → Option Header) : Nat → Int → Except String (List Nat)
  | 0, _ => .ok []
  | fuel + 1, pindex =>
    if pindex = 0 then .ok []
    else
      match lookup pindex with
      | none => .error "AttributeError: NoneType has no timestamp"
      | some h => (median_collect lookup fuel (pindex - 1)).map fun rest => h.timestamp :: rest

/-- get_median_timestamp from blockchain.py: the middle element (index
count // 2) of the sorted collected timestamps; an empty collection indexes
out of range (IndexError). -/
def get_median_timestamp (chain read_h : Int → Option Header) (height : Int) :
    Except String Nat :=
  (median_collect (chain_or_stored chain read_h) 11 height).bind fun pmedian =>
    match (sort_asc pmedian)[pmedian.length / 2]? with
    | some t => .ok t
    | none => .error "IndexError: list index out of range"

/-- Damp-and-clamp step of get_target_koto (source lines computing fix and
reassigning nActualTimespan): Python // is Int.fdiv and % 4 is Int.emod. -/
def adjusted_timespan (nActualTimespan : Int) : Int :=
  let nTargetTimespan : Int := 17 * 60
  let nMinActualTimespan := Int.fdiv (nTargetTimespan * (100 - 16)) 100
  let nMaxActualTimespan := Int.fdiv (nTargetTimespan * (100 + 32)) 100
  let fix : Int :=
    if nActualTimespan - nTargetTimespan < 0 ∧
        Int.emod (nActualTimespan - nTargetTimespan) 4 ≠ 0 then 1 else 0
  let a1 := nTargetTimespan + Int.fdiv (nActualTimespan - nTargetTimespan) 4
  let a2 := a1 + fix
  let a3 := max a2 nMinActualTimespan
  min a3 nMaxActualTimespan

/-- Averaging loop of get_target_koto: 17 iterations summing
bits_to_target(BlockReading.bits), then stepping BlockReading to height
height-1-CountBlocks; a missing header dereferences None (the CountBlocks <=
nAverageBlocks test inside the loop is always true and is dropped here). -/
def bn_old_avg (lookup : Int → Option Header) (height : Int) :
    Nat → Option Header → Int → Except String Nat
  | 0, _, _ => .ok 0
  | n + 1, br, countBlocks =>
    match br with
    | none => .error "AttributeError: NoneType has no bits"
    | some h => do
      let t ← bits_to_target h.bits
      let rest ← bn_old_avg lookup height n
        (lookup (height - 1 - (countBlocks + 1))) (countBlocks + 1)
      .ok (t + rest)

/-- get_target_koto from blockchain.py.  num_checkpoints is
len(self.checkpoints); chain is the auxiliary header dict and read_h the
persisted-store lookup. -/
def get_target_koto (num_checkpoints : Nat) (chain read_h : Int → Option Header)
    (height : Int) : Except String Int :=
  let last := chain_or_stored chain read_h (height - 1)
  let nAverageBlocks : Int := 17
  let nTargetTimespan : Int := 17 * 60
  if height < (num_checkpoints : Int) * 2016 + 28 then .ok 0
  else if last.isNone ∨ height - 1 ≤ nAverageBlocks then .ok (MAX_TARGET : Int)
  else do
    let bnOldAvg ← bn_old_avg (chain_or_stored chain read_h) height 17 last 0
    let m1 ← get_median_timestamp chain read_h (height - 1)
    let m2 ← get_median_timestamp chain read_h ((height - 1) - 17)
    let nActualTimespan := adjusted_timespan ((m1 : Int) - (m2 : Int))
    let bnNew := Int.fdiv (Int.fdiv (bnOldAvg : Int) nAverageBlocks) nTargetTimespan *
      nActualTimespan
    .ok (min bnNew (MAX_TARGET : Int))

/-- Retarget computation assembled from the claim's words: actualTimespan is
the difference of the median timestamps at heights height-1 and height-18,
d = actualTimespan - targetTimespan, adj = d / 4 by floor division with 1
added afterwards when d < 0 and d % 4 != 0, and targetTimespan + adj is
clamped to [targetTimespan*84/100, targetTimespan*132/100] with
targetTimespan = 17*60 = 1020; everything else follows the source. -/
def get_target_koto_spec (num_checkpoints : Nat) (chain read_h : Int → Option Header)
    (height : Int) : Except String Int :=
  let last := chain_or_stored chain read_h (height - 1)
  if height < (num_checkpoints : Int) * 2016 + 28 then .ok 0
  else if last.isNone ∨ height - 1 ≤ 17 then .ok (MAX_TARGET : Int)
  else do
    let bnOldAvg ← bn_old_avg (chain_or_stored chain read_h) height 17 last 0
    let m1 ← get_median_timestamp chain read_h (height - 1)
    let m2 ← get_median_timestamp chain read_h (height - 18)
    let d := (m1 : Int) - (m2 : Int) - 1020
    let adj := Int.fdiv d 4 + (if d < 0 ∧ Int.emod d 4 ≠ 0 then 1 else 0)
    let actual := min (Int.fdiv (1020 * 132) 100)
      (max (Int.fdiv (1020 * 84) 100) (1020 + adj))
    let bnNew := Int.fdiv (Int.fdiv (bnOldAvg : Int) 17) 1020 * actual
    .ok (min bnNew (MAX_TARGET : Int))

/-- Transaction input dict as consumed by serialize_preimage: prevout hash in
display order, prevout index, optional sequence (defaulted to 0xffffffff - 1),
and the input value. -/
structure TxIn where
  prevout_hash : List Nat
  prevout_n : Nat
  sequence : Option Nat
  value : Nat
  deriving Repr, DecidableEq

/-- Transaction output (the TxOutput named tuple): type tag, address and
value. -/
structure TxOutput where
  out_type : Nat
  address : String
  value : Nat
  deriving Repr, DecidableEq

/-- Transaction object state consumed by serialize_preimage. -/
structure Transaction where
  version : Nat
  overwintered : Bool
  saplinged : Bool
  versionGroupId : Nat
  expiryHeight : Nat
  locktime : Nat
  inputs : List TxIn
  outputs : List TxOutput
  deriving Repr, DecidableEq

/-- Modelled from the spec: bitcoin.var_int, the Bitcoin varint framing whose
reader is read_compact_size (1 byte below 0xfd; 0xfd/0xfe/0xff prefixes for
2-, 4- and 8-byte little-endian lengths). -/
def var_int (n : Nat) : List Nat :=
  if n < 0xfd then [n]
  else if n ≤ 0xffff then 0xfd :: toLE 2 n
  else if n ≤ 0xffffffff then 0xfe :: toLE 4 n
  else 0xff :: toLE 8 n

/-- BLAKE2b personalization 'ZcashPrevoutHash'. -/
def PREVOUTS_HASH_PERSON : List Nat := "ZcashPrevoutHash".toList.map Char.toNat

/-- BLAKE2b personalization 'ZcashSequencHash'. -/
def SEQUENCE_HASH_PERSON : List Nat := "ZcashSequencHash".toList.map Char.toNat

/-- BLAKE2b personalization 'ZcashOutputsHash'. -/
def OUTPUTS_HASH_PERSON : List Nat := "ZcashOutputsHash".toList.map Char.toNat

/-- serialize_outpoint from transaction.py: byte-reversed prevout hash
followed by the 4-byte little-endian prevout index. -/
def serialize_outpoint (txin : TxIn) : List Nat :=
  txin.prevout_hash.reverse ++ toLE 4 txin.prevout_n

/-- serialize_output from transaction.py; pay_script abstracts
bitcoin.pay_script (address-to-script encoding, in a module not under src). -/
def serialize_output (pay_script : TxOutput → List Nat) (o : TxOutput) : List Nat :=
  toLE 8 o.value ++ var_int (pay_script o).length ++ pay_script o

/-- serialize_input from transaction.py. -/
def serialize_input (txin : TxIn) (script : List Nat) (withSig : Bool) : List Nat :=
  serialize_outpoint txin ++
    (if withSig then var_int script.length ++ script else []) ++
    toLE 4 (txin.sequence.getD (0xffffffff - 1))

/-- serialize_preimage from transaction.py.  blake2b (digest size,
personalization, data) abstracts the external hash; pay_script and
preimage_script abstract pay_script and get_preimage_script, which depend on
address/script helpers in modules not under src.  Indexing inputs[i] out of
range raises, hence the Option result. -/
def serialize_preimage (blake2b : Nat → List Nat → List Nat → List Nat)
    (pay_script : TxOutput → List Nat) (preimage_script : TxIn → List Nat)
    (tx : Transaction) (i : Nat) : Option (List Nat) :=
  match tx.inputs[i]? with
  | none => none
  | some txin =>
    let nHashType := toLE 4 1
    let nLocktime := toLE 4 tx.locktime
    some (if tx.overwintered then
      let nVersion := toLE 4 (tx.version + 0x80000000)
      let nVersionGroupId := toLE 4 tx.versionGroupId
      let nExpiryHeight := toLE 4 tx.expiryHeight
      let hashPrevouts := blake2b 32 PREVOUTS_HASH_PERSON
        (List.flatten (tx.inputs.map serialize_outpoint))
      let hashSequence := blake2b 32 SEQUENCE_HASH_PERSON
        (List.flatten (tx.inputs.map fun t => toLE 4 (t.sequence.getD (0xffffffff - 1))))
      let hashOutputs := blake2b 32 OUTPUTS_HASH_PERSON
        (List.flatten (tx.outputs.map (serialize_output pay_script)))
      let hashJoinSplits := toLE 32 0
      let hashShieldedSpends := toLE 32 0
      let hashShieldedOutputs := toLE 32 0
      let valueBalance := toLE 8 0
      let outpoint := serialize_outpoint txin
      let scriptCode := var_int (preimage_script txin).length ++ preimage_script txin
      let amount := toLE 8 txin.value
      let nSequence := toLE 4 (txin.sequence.getD (0xffffffff - 1))
      if tx.saplinged then
        nVersion ++ nVersionGroupId ++ hashPrevouts ++ hashSequence ++ hashOutputs ++
          hashJoinSplits ++ hashShieldedSpends ++ hashShieldedOutputs ++ nLocktime ++
          nExpiryHeight ++ valueBalance ++ nHashType ++ outpoint ++ scriptCode ++
          amount ++ nSequence
      else
        nVersion ++ nVersionGroupId ++ hashPrevouts ++ hashSequence ++ hashOutputs ++
          hashJoinSplits ++ nLocktime ++ nExpiryHeight ++ nHashType ++ outpoint ++
          scriptCode ++ amount ++ nSequence
    else
      let nVersion := toLE 4 tx.version
      let txins := var_int tx.inputs.length ++
        List.flatten (tx.inputs.enum.map fun p =>
          serialize_input p.2 (if i = p.1 then preimage_script p.2 else []) true)
      let txouts := var_int tx.outputs.length ++
        List.flatten (tx.outputs.map (serialize_output pay_script))
      nVersion ++ txins ++ txouts ++ nLocktime ++ nHashType)

/-- ZIP-243-style preimage layout assembled from the claim's words:
nVersion with the top bit set, then nVersionGroupId, the three BLAKE2b
digests (32-byte digest size) of the concatenated outpoints, sequences and
serialized outputs with personalizations ZcashPrevoutHash, ZcashSequencHash
and ZcashOutputsHash, a JoinSplits hash of 32 zero bytes (the transactions
signed here carry no JoinSplits), the bracketed shielded-hash fields exactly
when saplinged, nLocktime, nExpiryHeight, the bracketed valueBalance exactly
when saplinged, nHashType, and the outpoint, scriptCode, value and sequence
of input i. -/
def zip243_preimage (blake2b : Nat → List Nat → List Nat → List Nat)
    (pay_script : TxOutput → List Nat) (preimage_script : TxIn → List Nat)
    (tx : Transaction) (txin : TxIn) : List Nat :=
  toLE 4 (2 ^ 31 + tx.version) ++
  toLE 4 tx.versionGroupId ++
  blake2b 32 PREVOUTS_HASH_PERSON (List.flatten (tx.inputs.map serialize_outpoint)) ++
  blake2b 32 SEQUENCE_HASH_PERSON
    (List.flatten (tx.inputs.map fun t => toLE 4 (t.sequence.getD 0xfffffffe))) ++
  blake2b 32 OUTPUTS_HASH_PERSON
    (List.flatten (tx.outputs.map (serialize_output pay_script))) ++
  List.replicate 32 0 ++
  (if tx.saplinged then List.replicate 32 0 ++ List.replicate 32 0 else []) ++
  toLE 4 tx.locktime ++
  toLE 4 tx.expiryHeight ++
  (if tx.saplinged then toLE 8 0 else []) ++
  toLE 4 1 ++
  serialize_outpoint txin ++
  (var_int (preimage_script txin).length ++ preimage_script txin) ++
  toLE 8 txin.value ++
  toLE 4 (txin.sequence.getD 0xfffffffe)

/-- BCDataStream from transaction.py: the input byte buffer and a read
cursor. -/
structure BCDataStream where
  input : List Nat
  read_cursor : Nat
  deriving Repr, DecidableEq

/-- read_bytes: Python slicing clips, so this never fails and may return
fewer bytes than requested; the cursor still advances by the full length. -/
def read_bytes (n : Nat) (s : BCDataStream) : List Nat × BCDataStream :=
  (pyslice s.read_cursor (s.read_cursor + n) s.input,
    { s with read_cursor := s.read_cursor + n })

/-- The _read_num core shared by the fixed-width readers: struct.unpack_from
needs the full width available, else SerializationError. -/
def read_num (width : Nat) (s : BCDataStream) : Except String (Nat × BCDataStream) :=
  if s.read_cursor + width ≤ s.input.length then
    .ok (leNum (pyslice s.read_cursor (s.read_cursor + width) s.input),
      { s with read_cursor := s.read_cursor + width })
  else .error "SerializationError: struct.error"

/-- read_int64: the '<q' reader, two's-complement signed. -/
def read_int64 (s : BCDataStream) : Except String (Int × BCDataStream) :=
  (read_num 8 s).map fun p =>
    ((p.1 : Int) - (if 2 ^ 63 ≤ p.1 then 2 ^ 64 else 0), p.2)

/-- read_compact_size from transaction.py. -/
def read_compact_size (s : BCDataStream) : Except String (Nat × BCDataStream) :=
  if s.read_cursor < s.input.length then
    let size := s.input.getD s.read_cursor 0
    let s1 : BCDataStream := { s with read_cursor := s.read_cursor + 1 }
    if size = 253 then read_num 2 s1
    else if size = 254 then read_num 4 s1
    else if size = 255 then read_num 8 s1
    else .ok (size, s1)
  else .error "SerializationError: attempt to read past end of buffer"

/-- can_read_more from transaction.py. -/
def can_read_more (s : BCDataStream) : Bool :=
  !s.input.isEmpty && decide (s.read_cursor < s.input.length)

/-- get_remains from transaction.py: input[read_cursor::]. -/
def get_remains (s : BCDataStream) : List Nat := s.input.drop s.read_cursor

/-- Parsed transaction input dict.  The full_parse decorations
(parse_scriptSig) only annotate the dict from the already-read scriptSig
bytes and swallow every exception, so they neither move the stream nor
raise; they are omitted. -/
structure TxInParsed where
  prevout_hash : List Nat
  prevout_n : Nat
  scriptSig : List Nat
  sequence : Nat
  tin_type : String
  num_sig : Nat
  deriving Repr, DecidableEq

/-- parse_input from transaction.py (field decorations of full parsing
omitted, see TxInParsed). -/
def parse_input (s : BCDataStream) : Except String (TxInParsed × BCDataStream) := do
  let (ph, s) := read_bytes 32 s
  let (n, s) ← read_num 4 s
  let (sz, s) ← read_compact_size s
  let (sig, s) := read_bytes sz s
  let (seq, s) ← read_num 4 s
  let phd := ph.reverse
  .ok ({ prevout_hash := phd, prevout_n := n, scriptSig := sig, sequence := seq,
         tin_type := if phd ≠ List.replicate 32 0 then "unknown" else "coinbase",
         num_sig := 0 }, s)

/-- Parsed transaction output dict. -/
structure TxOutParsed where
  value : Int
  out_type : Nat
  address : String
  scriptPubKey : List Nat
  prevout_n : Nat
  deriving Repr, DecidableEq

/-- parse_output from transaction.py.  money_limit is
TOTAL_COIN_SUPPLY_LIMIT_IN_BTC * COIN (constants in bitcoin.py, not under
src); get_addr abstracts get_address_from_output_script, which catches
MalformedBitcoinScript and always returns a (type, address) pair. -/
def parse_output (money_limit : Int) (get_addr : List Nat → Nat × String)
    (s : BCDataStream) (i : Nat) : Except String (TxOutParsed × BCDataStream) := do
  let (v, s) ← read_int64 s
  if money_limit < v then
    throw "invalid output amount (too large)"
  if v < 0 then
    throw "invalid output amount (negative)"
  let (sz, s) ← read_compact_size s
  let (spk, s) := read_bytes sz s
  let ta := get_addr spk
  .ok ({ value := v, out_type := ta.1, address := ta.2, scriptPubKey := spk,
         prevout_n := i }, s)

/-- parse_GrothProof: 48+96+48 raw bytes. -/
def parse_GrothProof (s : BCDataStream) : List Nat × BCDataStream :=
  read_bytes (48 + 96 + 48) s

/-- Compressed G1 point of a PHGR proof. -/
structure CompG1 where
  y_lsb : Nat
  x : List Nat
  deriving Repr, DecidableEq

/-- Compressed G2 point of a PHGR proof. -/
structure CompG2 where
  y_gt : Nat
  x : List Nat
  deriving Repr, DecidableEq

/-- parse_CompressedG1 from transaction.py. -/
def parse_CompressedG1 (s : BCDataStream) : Except String (CompG1 × BCDataStream) := do
  let (y, s) ← read_num 1 s
  let (x, s) := read_bytes 32 s
  .ok ({ y_lsb := y &&& 1, x := x }, s)

/-- parse_CompressedG2 from transaction.py. -/
def parse_CompressedG2 (s : BCDataStream) : Except String (CompG2 × BCDataStream) := do
  let (y, s) ← read_num 1 s
  let (x, s) := read_bytes 64 s
  .ok ({ y_gt := y &&& 1, x := x }, s)

/-- PHGR proof bundle. -/
structure PHGRProof where
  g_A : CompG1
  g_A_prime : CompG1
  g_B : CompG2
  g_B_prime : CompG1
  g_C : CompG1
  g_C_prime : CompG1
  g_K : CompG1
  g_H : CompG1
  deriving Repr, DecidableEq

/-- parse_PHGRProof from transaction.py. -/
def parse_PHGRProof (s : BCDataStream) : Except String (PHGRProof × BCDataStream) := do
  let (gA, s) ← parse_CompressedG1 s
  let (gA2, s) ← parse_CompressedG1 s
  let (gB, s) ← parse_CompressedG2 s
  let (gB2, s) ← parse_CompressedG1 s
  let (gC, s) ← parse_CompressedG1 s
  let (gC2, s) ← parse_CompressedG1 s
  let (gK, s) ← parse_CompressedG1 s
  let (gH, s) ← parse_CompressedG1 s
  .ok ({ g_A := gA, g_A_prime := gA2, g_B := gB, g_B_prime := gB2, g_C := gC,
         g_C_prime := gC2, g_K := gK, g_H := gH }, s)

/-- Either zero-knowledge proof encoding of a JoinSplit. -/
inductive JSProof where
  | groth (bytes : List Nat)
  | phgr (proof : PHGRProof)
  deriving Repr, DecidableEq

/-- KOTO_NOTECIPHERTEXT_SIZE. -/
def KOTO_NOTECIPHERTEXT_SIZE : Nat := 1 + 8 + 32 + 32 + 512 + 16

/-- KOTO_SAPLING_ENCCIPHERTEXT_SIZE. -/
def KOTO_SAPLING_ENCCIPHERTEXT_SIZE : Nat := (1 + 11 + 8 + 32 + 512) + 16

/-- KOTO_SAPLING_OUTCIPHERTEXT_SIZE. -/
def KOTO_SAPLING_OUTCIPHERTEXT_SIZE : Nat := (32 + 32) + 16

/-- JoinSplit description. -/
structure JSDesc where
  vpub_old : Nat
  vpub_new : Nat
  anchor : List Nat
  nullifiers : List (List Nat)
  commitments : List (List Nat)
  ephemeralKey : List Nat
  randomSeed : List Nat
  macs : List (List Nat)
  proof : JSProof
  ciphertexts : List (List Nat)
  deriving Repr, DecidableEq

/-- parse_JSDescription from transaction.py (KOTO_NUM_JS_INPUTS =
KOTO_NUM_JS_OUTPUTS = 2). -/
def parse_JSDescription (useGroth : Bool) (s : BCDataStream) :
    Except String (JSDesc × BCDataStream) := do
  let (vo, s) ← read_num 8 s
  let (vn, s) ← read_num 8 s
  let (anchor, s) := read_bytes 32 s
  let (nf1, s) := read_bytes 32 s
  let (nf2, s) := read_bytes 32 s
  let (cm1, s) := read_bytes 32 s
  let (cm2, s) := read_bytes 32 s
  let (ek, s) := read_bytes 32 s
  let (rs, s) := read_bytes 32 s
  let (mac1, s) := read_bytes 32 s
  let (mac2, s) := read_bytes 32 s
  let (proof, s) ←
    if useGroth then
      let (g, s) := parse_GrothProof s
      .ok (JSProof.groth g, s)
    else
      (parse_PHGRProof s).map fun p => (JSProof.phgr p.1, p.2)
  let (ct1, s) := read_bytes KOTO_NOTECIPHERTEXT_SIZE s
  let (ct2, s) := read_bytes KOTO_NOTECIPHERTEXT_SIZE s
  .ok ({ vpub_old := vo, vpub_new := vn, anchor := anchor,
         nullifiers := [nf1, nf2], commitments := [cm1, cm2],
         ephemeralKey := ek, randomSeed := rs, macs := [mac1, mac2],
         proof := proof, ciphertexts := [ct1, ct2] }, s)

/-- Sapling shielded spend description. -/
structure ShieldedSpend where
  cv : List Nat
  anchor : List Nat
  nullifiers : List Nat
  rk : List Nat
  proof : List Nat
  spendAuthSig : List Nat
  deriving Repr, DecidableEq

/-- parse_ShieldedSpend from transaction.py: fixed-size raw reads only,
hence never failing. -/
def parse_ShieldedSpend (s : BCDataStream) : ShieldedSpend × BCDataStream :=
  let (cv, s) := read_bytes 32 s
  let (anchor, s) := read_bytes 32 s
  let (nf, s) := read_bytes 32 s
  let (rk, s) := read_bytes 32 s
  let (proof, s) := parse_GrothProof s
  let (sas, s) := read_bytes 64 s
  ({ cv := cv, anchor := anchor, nullifiers := nf, rk := rk, proof := proof,
     spendAuthSig := sas }, s)

/-- Sapling shielded output description. -/
structure ShieldedOutput where
  cv : List Nat
  cm : List Nat
  ephemeralKey : List Nat
  encCiphertext : List Nat
  outCiphertext : List Nat
  proof : List Nat
  deriving Repr, DecidableEq

/-- parse_ShieldedOutput from transaction.py. -/
def parse_ShieldedOutput (s : BCDataStream) : ShieldedOutput × BCDataStream :=
  let (cv, s) := read_bytes 32 s
  let (cm, s) := read_bytes 32 s
  let (ek, s) := read_bytes 32 s
  let (enc, s) := read_bytes KOTO_SAPLING_ENCCIPHERTEXT_SIZE s
  let (outc, s) := read_bytes KOTO_SAPLING_OUTCIPHERTEXT_SIZE s
  let (proof, s) := parse_GrothProof s
  ({ cv := cv, cm := cm, ephemeralKey := ek, encCiphertext := enc,
     outCiphertext := outc, proof := proof }, s)

/-- n repetitions of a fallible parser (the list comprehensions over a
compact-size count). -/
def repeat_parse {α : Type} (p : BCDataStream → Except String (α × BCDataStream)) :
    Nat → BCDataStream → Except String (List α × BCDataStream)
  | 0, s => .ok ([], s)
  | n + 1, s => do
    let (a, s) ← p s
    let (rest, s) ← repeat_parse p n s
    .ok (a :: rest, s)

/-- n repetitions of an infallible parser. -/
def repeat_pure {α : Type} (p : BCDataStream → α × BCDataStream) :
    Nat → BCDataStream → List α × BCDataStream
  | 0, s => ([], s)
  | n + 1, s =>
    let (a, s1) := p s
    let (rest, s2) := repeat_pure p n s1
    (a :: rest, s2)

/-- The indexed output comprehension [parse_output(vds, i) for i in
range(n_vout)]. -/
def repeat_outputs (money_limit : Int) (get_addr : List Nat → Nat × String) :
    Nat → Nat → BCDataStream → Except String (List TxOutParsed × BCDataStream)
  | 0, _, s => .ok ([], s)
  | n + 1, i, s => do
    let (o, s) ← parse_output money_limit get_addr s i
    let (rest, s) ← repeat_outputs money_limit get_addr n (i + 1) s
    .ok (o :: rest, s)

/-- A conditionally read optional uint32 (versionGroupId, expiryHeight). -/
def read_u32_opt (cond : Bool) (s : BCDataStream) :
    Except String (Option Nat × BCDataStream) :=
  if cond then (read_num 4 s).map fun p => (some p.1, p.2) else .ok (none, s)

/-- PARTIAL_TXN_HEADER_MAGIC = b'EPTF\xff'. -/
def PARTIAL_TXN_HEADER_MAGIC : List Nat := ("EPTF".toList.map Char.toNat) ++ [0xff]

/-- Partial-envelope handling at the top of deserialize: strip the 6-byte
prefix after checking the format version byte (reading it past the end of a
5-byte buffer would be an IndexError). -/
def strip_partial (raw : List Nat) : Except String (Bool × List Nat) :=
  if raw.take 5 = PARTIAL_TXN_HEADER_MAGIC then
    if 5 < raw.length then
      if raw.getD 5 0 ≠ 0 then
        .error "unknown tx partial serialization format version"
      else .ok (true, raw.drop 6)
    else .error "IndexError: index out of range"
  else .ok (false, raw)

/-- Parsed transaction dict (partialFlag is the d['partial'] entry). -/
structure TxParsed where
  partialFlag : Bool
  overwintered : Bool
  version : Nat
  versionGroupId : Option Nat
  saplinged : Bool
  segwit_ser : Bool
  inputs : List TxInParsed
  outputs : List TxOutParsed
  lockTime : Nat
  expiryHeight : Option Nat
  saplingRaw : Option (List Nat)
  valueBalance : Option Int
  shieldedSpend : List ShieldedSpend
  shieldedOutput : List ShieldedOutput
  joinSplitsRaw : Option (List Nat)
  n_JSDescs : Option Nat
  joinSplits : List JSDesc
  joinSplitPubKey : Option (List Nat)
  joinSplitSig : Option (List Nat)
  bindingSig : Option (List Nat)
  deriving Repr, DecidableEq

/-- Sapling section of deserialize (version >= 4): remember the raw
remainder, then valueBalance, shielded spends and outputs. -/
def parse_sapling_section (s : BCDataStream) :
    Except String ((List Nat × Int × List ShieldedSpend × List ShieldedOutput) ×
      BCDataStream) := do
  let raw := get_remains s
  let (vb, s) ← read_int64 s
  let (nSS, s) ← read_compact_size s
  let (ss, s) := repeat_pure parse_ShieldedSpend nSS s
  let (nSO, s) ← read_compact_size s
  let (so, s) := repeat_pure parse_ShieldedOutput nSO s
  .ok ((raw, vb, ss, so), s)

/-- JoinSplit section of deserialize (version >= 2): raw remainder, count,
descriptions, and when the count is positive the joinSplitPubKey and
joinSplitSig. -/
def parse_joinsplit_section (useGroth : Bool) (s : BCDataStream) :
    Except String ((List Nat × Nat × List JSDesc × Option (List Nat) ×
      Option (List Nat)) × BCDataStream) := do
  let raw := get_remains s
  let (nJS, s) ← read_compact_size s
  let (jss, s) ← repeat_parse (parse_JSDescription useGroth) nJS s
  if 0 < nJS then
    let (pk, s) := read_bytes 32 s
    let (sig, s) := read_bytes 64 s
    .ok ((raw, nJS, jss, some pk, some sig), s)
  else
    .ok ((raw, nJS, jss, none, none), s)

/-- Body of deserialize from transaction.py, after the partial-envelope
stripping and before the trailing-junk check.  is_segwit is hardcoded 0 in
the source (line 734), so the segwit marker/witness paths are dead. -/
def deserialize_core (money_limit : Int) (get_addr : List Nat → Nat × String)
    (isPartial : Bool) (s0 : BCDataStream) :
    Except String (TxParsed × BCDataStream) := do
  let (header, s) ← read_num 4 s0
  let overwintered := header >>> 31 = 1
  let version := if header >>> 31 = 1 then header &&& 0x7fffffff else header
  let (vgid, s) ← read_u32_opt (decide (3 ≤ version)) s
  let saplinged := 4 ≤ version
  let (n_vin, s) ← read_compact_size s
  let (ins, s) ← repeat_parse parse_input n_vin s
  let (n_vout, s) ← read_compact_size s
  let (outs, s) ← repeat_outputs money_limit get_addr n_vout 0 s
  let (lockTime, s) ← read_num 4 s
  let (expiry, s) ← read_u32_opt (decide (3 ≤ version)) s
  let base : TxParsed :=
    { partialFlag := isPartial, overwintered := decide overwintered,
      version := version, versionGroupId := vgid, saplinged := decide saplinged,
      segwit_ser := false, inputs := ins, outputs := outs, lockTime := lockTime,
      expiryHeight := expiry, saplingRaw := none, valueBalance := none,
      shieldedSpend := [], shieldedOutput := [], joinSplitsRaw := none,
      n_JSDescs := none, joinSplits := [], joinSplitPubKey := none,
      joinSplitSig := none, bindingSig := none }
  if 4 ≤ version then
    let (sap, s) ← parse_sapling_section s
    let (js, s) ← parse_joinsplit_section true s
    let (bsig, s) :=
      if sap.2.2.1.length ≠ 0 ∨ sap.2.2.2.length ≠ 0 then
        let (bs, s1) := read_bytes 64 s
        (some bs, s1)
      else (none, s)
    .ok ({ base with
           saplingRaw := some sap.1, valueBalance := some sap.2.1,
           shieldedSpend := sap.2.2.1, shieldedOutput := sap.2.2.2,
           joinSplitsRaw := some js.1, n_JSDescs := some js.2.1,
           joinSplits := js.2.2.1, joinSplitPubKey := js.2.2.2.1,
           joinSplitSig := js.2.2.2.2, bindingSig := bsig }, s)
  else if 2 ≤ version then
    let (js, s) ← parse_joinsplit_section false s
    .ok ({ base with
           joinSplitsRaw := some js.1, n_JSDescs := some js.2.1,
           joinSplits := js.2.2.1, joinSplitPubKey := js.2.2.2.1,
           joinSplitSig := js.2.2.2.2 }, s)
  else
    .ok (base, s)

/-- deserialize from transaction.py: strip the partial envelope, parse the
body, and reject trailing bytes. -/
def deserialize (money_limit : Int) (get_addr : List Nat → Nat × String)
    (raw : List Nat) : Except String TxParsed := do
  let (isP, body) ← strip_partial raw
  let (d, s) ← deserialize_core money_limit get_addr isP
    { input := body, read_cursor := 0 }
  if can_read_more s then
    throw "extra junk at the end"
  .ok d

/-- Mutable Blockchain object state used by the reorg engine: forkpoint, the
cached _size, the two hex-string ids and the parent object key. -/
structure BlockchainRec where
  forkpoint : Int
  size : Int
  forkpoint_hash : String
  prev_hash : Option String
  parent : Option Nat
  deriving Repr, DecidableEq

/-- World state of the reorg engine: chain objects keyed by object identity,
the global blockchains registry (chain id to object key) and the header files
keyed by path. -/
structure World where
  chains : List (Nat × BlockchainRec)
  registry : List (String × Nat)
  files : List (String × List Nat)
  deriving Repr, DecidableEq

/-- Dictionary lookup on an association list. -/
def alist_get {α β : Type} [DecidableEq α] : List (α × β) → α → Option β
  | [], _ => none
  | (k, v) :: rest, key => if key = k then some v else alist_get rest key

/-- Dictionary update on an association list. -/
def alist_set {α β : Type} [DecidableEq α] : List (α × β) → α → β → List (α × β)
  | [], key, v => [(key, v)]
  | (k, w) :: rest, key, v =>
    if key = k then (k, v) :: rest else (k, w) :: alist_set rest key v

/-- Dictionary removal (dict.pop(key, None) / os file removal). -/
def alist_del {α β : Type} [DecidableEq α] : List (α × β) → α → List (α × β)
  | [], _ => []
  | (k, w) :: rest, key => if key = k then rest else (k, w) :: alist_del rest key

/-- str.lstrip('0'). -/
def lstrip0 (s : String) : String :=
  String.mk (s.toList.dropWhile fun c => c = '0')

/-- path() from blockchain.py: the main chain file or the
fork2_{forkpoint}_{prev}_{first} fork file (ids with leading zeros stripped;
forks always carry a prev hash, defaulted here for totality). -/
def chain_path (c : BlockchainRec) : String :=
  match c.parent with
  | none => "blockchain_headers"
  | some _ =>
    "forks/fork2_" ++ toString c.forkpoint ++ "_" ++
      lstrip0 (c.prev_hash.getD "") ++ "_" ++ lstrip0 c.forkpoint_hash

/-- update_size() on the world: recompute a chain's _size from its file's
byte length (0 when the file does not exist). -/
def w_update_size (S : Int) (w : World) (key : Nat) : World :=
  match alist_get w.chains key with
  | none => w
  | some c =>
    let fsize : Int :=
      match alist_get w.files (chain_path c) with
      | some data => (data.length : Int)
      | none => 0
    { w with chains := alist_set w.chains key { c with size := update_size S c.forkpoint fsize } }

/-- write() from blockchain.py on the world: require the file present
(assert_headers_file_available), optionally truncate at offset when it is not
the current size (file.truncate() extends with zero bytes when the seek is
past the end), write data at offset, then update_size. -/
def w_write (S : Int) (w : World) (key : Nat) (data : List Nat) (offset : Nat)
    (truncate : Bool) : Except String World :=
  match alist_get w.chains key with
  | none => .error "missing chain object"
  | some c =>
    let p := chain_path c
    match alist_get w.files p with
    | none => .error "FileNotFoundError: cannot find headers file"
    | some fl =>
      let base := if truncate ∧ offset ≠ fl.length then fl.take offset else fl
      let padded := base ++ List.replicate (offset - base.length) 0
      let newfl := padded.take offset ++ data ++ padded.drop (offset + data.length)
      .ok (w_update_size S { w with files := alist_set w.files p newfl } key)

/-- _swap_with_parent from blockchain.py.  cw abstracts get_chainwork (a
function of the world and the chain object) and hash_raw abstracts
hash_raw_header composed with hex encoding.  S is SAPLING_HEIGHT. -/
def swap_step (S : Int) (cw : World → Nat → Int) (hash_raw : List Nat → String)
    (w : World) (key : Nat) : Except String (Bool × World) :=
  match alist_get w.chains key with
  | none => .error "missing chain object"
  | some self =>
    match self.parent with
    | none => .ok (false, w)
    | some pkey =>
      match alist_get w.chains pkey with
      | none => .error "dangling parent reference"
      | some parent =>
        if cw w key ≤ cw w pkey then .ok (false, w)
        else do
          let parent_branch_size := parent.forkpoint + parent.size - 1 - self.forkpoint + 1
          let forkpoint := self.forkpoint
          let child_old_id := self.forkpoint_hash
          let parent_old_id := parent.forkpoint_hash
          let child_old_name := chain_path self
          let my_data ←
            match alist_get w.files child_old_name with
            | some d => Except.ok d
            | none => Except.error "FileNotFoundError: cannot find headers file"
          let pdata_all ←
            match alist_get w.files (chain_path parent) with
            | some d => Except.ok d
            | none => Except.error "FileNotFoundError: cannot find headers file"
          let offlen : Int × Int :=
            if S < forkpoint then
              ((forkpoint - S) * HEADER_SIZE_SAPLING +
                  (if parent.forkpoint < S then (S - parent.forkpoint) * HEADER_SIZE
                   else (S - parent.forkpoint) * HEADER_SIZE_SAPLING),
                parent_branch_size * HEADER_SIZE_SAPLING)
            else
              ((forkpoint - parent.forkpoint) * HEADER_SIZE,
                if parent.forkpoint + parent.size - 1 < S then
                  parent_branch_size * HEADER_SIZE
                else
                  (parent.forkpoint + parent.size - 1 - S + 1) * HEADER_SIZE_SAPLING +
                    (S - forkpoint) * HEADER_SIZE)
          if offlen.1 < 0 then
            throw "ValueError: negative seek position"
          if offlen.2 < 0 then
            throw "ValueError: read length must be non-negative"
          let parent_data := (pdata_all.drop offlen.1.toNat).take offlen.2.toNat
          let w ← w_write S w key parent_data 0 true
          let w ← w_write S w pkey my_data offlen.1.toNat true
          let self2 ←
            match alist_get w.chains key with
            | some c => Except.ok c
            | none => Except.error "missing chain object"
          let parent2 ←
            match alist_get w.chains pkey with
            | some c => Except.ok c
            | none => Except.error "missing chain object"
          let rec_size : Nat := if forkpoint < S then 80 else 112
          let newSelf : BlockchainRec :=
            { self2 with
              parent := parent2.parent, forkpoint := parent2.forkpoint,
              forkpoint_hash := parent2.forkpoint_hash, prev_hash := parent2.prev_hash }
          let newParent : BlockchainRec :=
            { parent2 with
              parent := some key, forkpoint := self2.forkpoint,
              forkpoint_hash := hash_raw (parent_data.take rec_size),
              prev_hash := self2.prev_hash }
          let w : World :=
            { w with chains := alist_set (alist_set w.chains key newSelf) pkey newParent }
          let cdata ←
            match alist_get w.files child_old_name with
            | some d => Except.ok d
            | none => Except.error "FileNotFoundError: rename source missing"
          let w : World :=
            { w with
              files := alist_set (alist_del w.files child_old_name)
                (chain_path newParent) cdata }
          let w := w_update_size S w key
          let w := w_update_size S w pkey
          let reg := alist_del (alist_del w.registry child_old_id) parent_old_id
          let reg := alist_set reg newSelf.forkpoint_hash key
          let reg := alist_set reg newParent.forkpoint_hash pkey
          .ok (true, { w with registry := reg })

/-- Reduction of an Except bind on a success value. -/
theorem except_bind_ok {ε α β : Type} (a : α) (f : α → Except ε β) :
    (Except.ok a : Except ε α) >>= f = f a := rfl

/-- Reduction of an Except map on a success value. -/
theorem except_map_ok {ε α β : Type} (g : α → β) (a : α) :
    Except.map g (Except.ok a : Except ε α) = Except.ok (g a) := rfl

/-- Closed form of spec_file_len when every record is at or above sapling
height. -/
theorem spec_file_len_high (S : Int) (n : Nat) :
    ∀ f : Int, S ≤ f → spec_file_len S f n = 112 * n := by
  induction n with
  | zero => intro f _; simp [spec_file_len]
  | succ n ih =>
    intro f hf
    rw [spec_file_len, if_neg (by omega), ih (f + 1) (by omega)]
    push_cast; ring

/-- Closed form of spec_file_len when every record is below sapling height. -/
theorem spec_file_len_low (S : Int) (n : Nat) :
    ∀ f : Int, f + n ≤ S → spec_file_len S f n = 80 * n := by
  induction n with
  | zero => intro f _; simp [spec_file_len]
  | succ n ih =>
    intro f hf
    rw [spec_file_len, if_pos (by push_cast at hf; omega), ih (f + 1) (by push_cast at hf ⊢; omega)]
    push_cast; ring

/-- Closed form of spec_file_len across the sapling transition. -/
theorem spec_file_len_mid (S : Int) (n : Nat) :
    ∀ f : Int, f ≤ S → S ≤ f + n → spec_file_len S f n = 80 * (S - f) + 112 * (f + n - S) := by
  induction n with
  | zero => intro f h1 h2; push_cast at h2; rw [spec_file_len]; omega
  | succ n ih =>
    intro f h1 h2
    push_cast at h2
    by_cases hf : f < S
    · rw [spec_file_len, if_pos hf, ih (f + 1) (by omega) (by omega)]
      push_cast; ring_nf
    · rw [spec_file_len, if_neg hf, spec_file_len_high S n (f + 1) (by omega)]
      push_cast; omega

/-- Success recognizer reduction for Except. -/
theorem except_isOk_ok {ε α : Type} (a : α) : (Except.ok a : Except ε α).isOk = true := rfl

/-- Failure recognizer reduction for Except. -/
theorem except_isOk_error {ε α : Type} (e : ε) :
    (Except.error e : Except ε α).isOk = false := rfl

/-- Bit masking by an all-ones mask is reduction modulo the corresponding
power of two. -/
theorem nat_and_mask (x k : Nat) : x &&& (2 ^ k - 1) = x % 2 ^ k := by
  apply Nat.eq_of_testBit_eq
  intro i
  simp [Nat.testBit_and, Nat.testBit_mod_two_pow, Nat.testBit_two_pow_sub_one,
    Bool.and_comm]

/-- toBE of a value with j trailing zero bytes splits off those zeros. -/
theorem toBE_mul256 (j : Nat) :
    ∀ k v : Nat, j ≤ k → toBE k (v * 256 ^ j) = toBE (k - j) v ++ List.replicate j 0 := by
  induction j with
  | zero => intro k v _; simp
  | succ j ih =>
    intro k v hjk
    obtain ⟨k', rfl⟩ : ∃ k', k = k' + 1 := ⟨k - 1, by omega⟩
    have hdiv : v * 256 ^ (j + 1) / 256 = v * 256 ^ j := by
      rw [pow_succ, ← Nat.mul_assoc]
      exact Nat.mul_div_cancel _ (by norm_num)
    have hmod : v * 256 ^ (j + 1) % 256 = 0 := by
      rw [pow_succ, ← Nat.mul_assoc]
      exact Nat.mul_mod_left _ _
    rw [toBE, hdiv, hmod, ih k' v (by omega)]
    have hk : k' + 1 - (j + 1) = k' - j := by omega
    rw [hk, List.replicate_succ', List.append_assoc]

/-- toBE with one more byte than needed gets a leading zero byte. -/
theorem toBE_leading_zero (k : Nat) :
    ∀ v : Nat, v < 256 ^ k → toBE (k + 1) v = 0 :: toBE k v := by
  induction k with
  | zero =>
    intro v hv
    interval_cases v
    rfl
  | succ k ih =>
    intro v hv
    have hdivlt : v / 256 < 256 ^ k := by
      rw [Nat.div_lt_iff_lt_mul (by norm_num)]
      calc v < 256 ^ (k + 1) := hv
        _ = 256 ^ k * 256 := by rw [pow_succ]
    calc toBE (k + 1 + 1) v = toBE (k + 1) (v / 256) ++ [v % 256] := rfl
      _ = (0 :: toBE k (v / 256)) ++ [v % 256] := by rw [ih (v / 256) hdivlt]
      _ = 0 :: toBE (k + 1) v := rfl

/-- Three-byte big-endian rendering of a value below 2^24. -/
theorem toBE_three (m : Nat) (hm : m < 16777216) :
    toBE 3 m = [m / 65536, m / 256 % 256, m % 256] := by
  have h1 : m / 256 / 256 = m / 65536 := by
    rw [Nat.div_div_eq_div_mul]
  have h2 : m / 65536 % 256 = m / 65536 := Nat.mod_eq_of_lt (by omega)
  calc toBE 3 m = [m / 256 / 256 % 256, m / 256 % 256, m % 256] := rfl
    _ = [m / 65536, m / 256 % 256, m % 256] := by rw [h1, h2]

/-- Big-endian padding of a three-byte value to k bytes. -/
theorem toBE_pad (k m : Nat) (h3 : 3 ≤ k) (hm : m < 16777216) :
    toBE k m = List.replicate (k - 3) 0 ++ toBE 3 m := by
  induction k with
  | zero => omega
  | succ k ih =>
    rcases Nat.lt_or_ge k 3 with hk | hk
    · have : k = 2 := by omega
      subst this
      simp
    · have hvk : m < 256 ^ k := by
        calc m < 16777216 := hm
          _ = 256 ^ 3 := by norm_num
          _ ≤ 256 ^ k := Nat.pow_le_pow_right (by norm_num) hk
      rw [toBE_leading_zero k m hvk, ih hk]
      have : k + 1 - 3 = (k - 3) + 1 := by omega
      rw [this, List.replicate_succ]
      rfl

/-- strip00 removes all leading zero bytes when a nonzero-headed tail of at
least three bytes follows. -/
theorem strip00_replicate (z : Nat) :
    ∀ b : Nat, ∀ t : List Nat, b ≠ 0 → 2 ≤ t.length →
      strip00 (List.replicate z 0 ++ b :: t) = b :: t := by
  induction z with
  | zero =>
    intro b t hb _
    obtain ⟨b', rfl⟩ : ∃ b', b = b' + 1 := ⟨b - 1, by omega⟩
    rfl
  | succ z ih =>
    intro b t hb ht
    rw [List.replicate_succ, List.cons_append, strip00]
    rw [if_pos (by simp [List.length_append]; omega)]
    exact ih b t hb ht

/-- strip00 stops at three remaining bytes even when the head is zero. -/
theorem strip00_to_three (z : Nat) :
    ∀ b1 b0 : Nat, 1 ≤ z → strip00 (List.replicate z 0 ++ [b1, b0]) = [0, b1, b0] := by
  induction z with
  | zero => omega
  | succ z ih =>
    intro b1 b0 _
    rcases Nat.eq_zero_or_pos z with hz | hz
    · subst hz; rfl
    · rw [List.replicate_succ, List.cons_append, strip00]
      rw [if_pos (by simp [List.length_append]; omega)]
      exact ih b1 b0 hz

/-- Central computation for the bits round trip: target_to_bits on a mantissa
m in [0x8000, 0x7fffff] shifted left by e-3 whole bytes (3 <= e <= 31)
recovers the exponent-mantissa pair. -/
theorem target_to_bits_pow (e m : Nat) (he3 : 3 ≤ e) (he31 : e ≤ 31)
    (hm1 : 0x8000 ≤ m) (hm2 : m ≤ 0x7fffff) :
    target_to_bits (m * 256 ^ (e - 3)) = 2 ^ 24 * e + m := by
  set j := e - 3 with hj
  have hjle : j ≤ 28 := by omega
  have hm24 : m < 16777216 := by omega
  have hA : toBE 32 (m * 256 ^ j) = toBE (32 - j) m ++ List.replicate j 0 :=
    toBE_mul256 j 32 m (by omega)
  have hB : toBE (32 - j) m = List.replicate (32 - j - 3) 0 ++ toBE 3 m :=
    toBE_pad (32 - j) m (by omega) hm24
  have hrep : List.replicate (32 - j - 3) 0 = 0 :: List.replicate (28 - j) 0 := by
    have : 32 - j - 3 = (28 - j) + 1 := by omega
    rw [this, List.replicate_succ]
  have hdrop : (toBE 32 (m * 256 ^ j)).drop 1 =
      List.replicate (28 - j) 0 ++ toBE 3 m ++ List.replicate j 0 := by
    rw [hA, hB, hrep]
    simp
  rcases Nat.lt_or_ge m 65536 with hmlow | hmhigh
  · -- top byte of the mantissa is zero; the byte below is at least 0x80
    have hb2 : m / 65536 = 0 := by omega
    have hb1 : m / 256 ≠ 0 := by omega
    have h3m : toBE 3 m = [0, m / 256, m % 256] := by
      rw [toBE_three m hm24, hb2]
      have : m / 256 % 256 = m / 256 := Nat.mod_eq_of_lt (by omega)
      rw [this]
    rcases Nat.eq_zero_or_pos j with hj0 | hjpos
    · -- e = 3: stripping stops at three bytes with a zero head
      rw [target_to_bits, hdrop, hj0, h3m]
      simp only [List.replicate_zero, List.append_nil]
      have : List.replicate (28 - 0) 0 ++ [0, m / 256, m % 256] =
          List.replicate 29 0 ++ [m / 256, m % 256] := by
        rw [show (29 : Nat) = 28 + 1 from rfl, List.replicate_succ']
        simp
      rw [this, strip00_to_three 29 _ _ (by omega)]
      have hbase : beNum [0, m / 256, m % 256] = m := by
        simp only [beNum, List.reverse_cons, List.reverse_nil, leNum]
        omega
      simp only [List.length_cons, List.length_nil, List.take, hbase]
      rw [if_neg (by omega)]
      have : (3 : Nat) <<< 24 = 2 ^ 24 * 3 := by norm_num [Nat.shiftLeft_eq]
      rw [this, ← Nat.mul_add_lt_is_or (by omega) 3]
      omega
    · -- e > 3: normalization bumps the exponent back up
      rw [target_to_bits, hdrop, h3m]
      have : List.replicate (28 - j) 0 ++ [0, m / 256, m % 256] ++ List.replicate j 0 =
          List.replicate (29 - j) 0 ++ (m / 256) :: (m % 256 :: List.replicate j 0) := by
        rw [show 29 - j = (28 - j) + 1 by omega, List.replicate_succ']
        simp
      rw [this, strip00_replicate (29 - j) _ _ hb1 (by simp; omega)]
      have htake : ((m / 256) :: (m % 256) :: List.replicate j 0).take 3 =
          [m / 256, m % 256, 0] := by
        obtain ⟨j', hj'⟩ : ∃ j', j = j' + 1 := ⟨j - 1, by omega⟩
        rw [hj', List.replicate_succ]
        rfl
      rw [htake]
      have hbase : beNum [m / 256, m % 256, 0] = 256 * m := by
        simp only [beNum, List.reverse_cons, List.reverse_nil, leNum]
        omega
      rw [hbase, if_pos (by omega)]
      have hlen : ((m / 256) :: (m % 256) :: List.replicate j 0).length = j + 2 := by
        simp
      rw [hlen]
      have hshift : (256 * m) >>> 8 = m := by
        rw [Nat.shiftRight_eq_div_pow]
        omega
      rw [hshift]
      have : (j + 2 + 1) <<< 24 = 2 ^ 24 * (j + 3) := by
        rw [Nat.shiftLeft_eq]; ring
      rw [this, ← Nat.mul_add_lt_is_or (by omega) (j + 3)]
      omega
  · -- top byte of the mantissa is nonzero
    have hb2 : m / 65536 ≠ 0 := by omega
    rw [target_to_bits, hdrop, toBE_three m hm24]
    have : List.replicate (28 - j) 0 ++ [m / 65536, m / 256 % 256, m % 256] ++
        List.replicate j 0 =
        List.replicate (28 - j) 0 ++
          (m / 65536) :: ((m / 256 % 256) :: (m % 256) :: List.replicate j 0) := by
      simp
    rw [this, strip00_replicate (28 - j) _ _ hb2 (by simp)]
    have htake : ((m / 65536) :: (m / 256 % 256) :: (m % 256) :: List.replicate j 0).take 3 =
        [m / 65536, m / 256 % 256, m % 256] := rfl
    rw [htake]
    have hbase : beNum [m / 65536, m / 256 % 256, m % 256] = m := by
      simp only [beNum, List.reverse_cons, List.reverse_nil, leNum]
      omega
    rw [hbase, if_neg (by omega)]
    have hlen : ((m / 65536) :: (m / 256 % 256) :: (m % 256) :: List.replicate j 0).length =
        j + 3 := by simp
    rw [hlen]
    have : (j + 3) <<< 24 = 2 ^ 24 * (j + 3) := by
      rw [Nat.shiftLeft_eq]; ring
    rw [this, ← Nat.mul_add_lt_is_or (by omega) (j + 3)]
    omega

/-- toLE always renders the requested number of bytes. -/
theorem toLE_length (k : Nat) : ∀ v : Nat, (toLE k v).length = k := by
  induction k with
  | zero => intro v; rfl
  | succ k ih => intro v; simp [toLE, ih]

/-- toLE of zero is a run of zero bytes. -/
theorem toLE_zero (k : Nat) : toLE k 0 = List.replicate k 0 := by
  induction k with
  | zero => rfl
  | succ k ih => simp [toLE, ih, List.replicate_succ]

/-- leNum inverts toLE on values that fit in the rendered width. -/
theorem leNum_toLE (k : Nat) : ∀ v : Nat, v < 2 ^ (8 * k) → leNum (toLE k v) = v := by
  induction k with
  | zero =>
    intro v hv
    simp only [Nat.mul_zero, pow_zero, Nat.lt_one_iff] at hv
    subst hv
    rfl
  | succ k ih =>
    intro v hv
    have hdiv : v / 256 < 2 ^ (8 * k) := by
      rw [Nat.div_lt_iff_lt_mul (by norm_num)]
      calc v < 2 ^ (8 * (k + 1)) := hv
        _ = 2 ^ (8 * k) * 256 := by rw [show 8 * (k + 1) = 8 * k + 8 by ring, pow_add]; norm_num
    rw [toLE, leNum, ih (v / 256) hdiv]
    omega

end Koto

open Koto

/-- C6: the piecewise record length of n consecutive records starting at the
forkpoint (80 bytes per record below SAPLING_HEIGHT, 112 at or above, with the
transition mid-file) equals the delta-bytes span of the source layout, and
update_size recovers exactly n from a file of that byte size, so the file size
equals the piecewise record length of _size records. -/
theorem C6_update_size_piecewise (S f : Int) (n : Nat) :
    update_size S f (spec_file_len S f n) = n ∧
      spec_file_len S f n = get_delta_bytes S (f + n) - get_delta_bytes S f := by
  have hlen : spec_file_len S f n = get_delta_bytes S (f + n) - get_delta_bytes S f := by
    rcases le_or_lt S f with hf | hf
    · rw [spec_file_len_high S n f hf, get_delta_bytes, get_delta_bytes,
        if_neg (by omega), if_neg (by omega)]
      unfold HEADER_SIZE HEADER_SIZE_SAPLING; omega
    · rcases le_or_lt (f + (n : Int)) S with hn | hn
      · rw [spec_file_len_low S n f hn, get_delta_bytes, get_delta_bytes]
        by_cases hb : f + (n : Int) < S
        · rw [if_pos hb, if_pos hf]; unfold HEADER_SIZE; omega
        · rw [if_neg hb, if_pos hf]
          unfold HEADER_SIZE HEADER_SIZE_SAPLING
          omega
      · rw [spec_file_len_mid S n f (by omega) (by omega), get_delta_bytes, get_delta_bytes,
          if_neg (by omega), if_pos hf]
        unfold HEADER_SIZE HEADER_SIZE_SAPLING; omega
  refine ⟨?_, hlen⟩
  rcases le_or_lt S f with hf | hf
  · rw [update_size, if_pos hf, spec_file_len_high S n f hf]
    unfold HEADER_SIZE_SAPLING
    exact Int.mul_fdiv_cancel_left _ (by norm_num)
  · rcases le_or_lt (f + (n : Int)) S with hn | hn
    · rw [update_size, if_neg (by omega), spec_file_len_low S n f hn,
        if_pos (by unfold HEADER_SIZE; omega)]
      unfold HEADER_SIZE
      exact Int.mul_fdiv_cancel_left _ (by norm_num)
    · rw [update_size, if_neg (by omega), spec_file_len_mid S n f (by omega) (by omega),
        if_neg (by unfold HEADER_SIZE; omega)]
      unfold HEADER_SIZE HEADER_SIZE_SAPLING
      have : 80 * (S - f) + 112 * (f + (n : Int) - S) - (S - f) * 80 = 112 * (f + (n : Int) - S) := by
        ring
      rw [this, Int.mul_fdiv_cancel_left _ (by norm_num)]
      omega

/-- C7 counterexample: bits_to_target succeeds on b = 0x11d00ffff (its
exponent byte (b>>24)&0xff = 0x1d and mantissa 0x00ffff satisfy the validity
ranges, b having garbage above bit 31), but the round trip returns
0x1d00ffff, not b. -/
theorem C7_bits_roundtrip_counterexample :
    (0x03 ≤ (0x11d00ffff >>> 24) &&& 0xff ∧ (0x11d00ffff >>> 24) &&& 0xff ≤ 0x1f ∧
      0x8000 ≤ 0x11d00ffff &&& 0xffffff ∧ 0x11d00ffff &&& 0xffffff ≤ 0x7fffff) ∧
    bits_to_target 0x11d00ffff = .ok (0xffff * 256 ^ 26) ∧
    target_to_bits (0xffff * 256 ^ 26) = 0x1d00ffff ∧ (0x1d00ffff : Nat) ≠ 0x11d00ffff := by
  exact ⟨by decide, rfl, by decide, by decide⟩

/-- C7 amended: bits_to_target fails exactly when the exponent or mantissa
falls outside its validity ranges, and for every b below 2^32 (the range of
the 4-byte bits field of a header) on which bits_to_target succeeds,
target_to_bits inverts it. -/
theorem C7_bits_roundtrip_amended (b : Nat) :
    ((bits_to_target b).isOk = true ↔
      (0x03 ≤ (b >>> 24) &&& 0xff ∧ (b >>> 24) &&& 0xff ≤ 0x1f ∧
        0x8000 ≤ b &&& 0xffffff ∧ b &&& 0xffffff ≤ 0x7fffff)) ∧
    (b < 2 ^ 32 → ∀ t : Nat, bits_to_target b = .ok t → target_to_bits t = b) := by
  have hmaskm : b &&& 0xffffff = b % 2 ^ 24 := by
    rw [show (0xffffff : Nat) = 2 ^ 24 - 1 by norm_num]
    exact nat_and_mask b 24
  constructor
  · simp only [bits_to_target]
    split_ifs with h1 h2
    · exact iff_of_true rfl ⟨h1.1, h1.2, h2.1, h2.2⟩
    · exact iff_of_false (by simp [except_isOk_error]) (by omega)
    · exact iff_of_false (by simp [except_isOk_error]) (by omega)
  · intro hb32 t ht
    have hmaske : (b >>> 24) &&& 0xff = b / 2 ^ 24 := by
      rw [Nat.shiftRight_eq_div_pow, show (0xff : Nat) = 2 ^ 8 - 1 by norm_num,
        nat_and_mask]
      exact Nat.mod_eq_of_lt (by omega)
    simp only [bits_to_target] at ht
    split_ifs at ht with h1 h2
    · rw [Except.ok.injEq] at ht
      rw [hmaske] at h1
      rw [hmaskm] at h2
      rw [hmaskm, hmaske] at ht
      have hsh : (b % 2 ^ 24) <<< (8 * (b / 2 ^ 24 - 3)) =
          b % 2 ^ 24 * 256 ^ (b / 2 ^ 24 - 3) := by
        rw [Nat.shiftLeft_eq, pow_mul]
        norm_num
      rw [hsh] at ht
      subst ht
      rw [target_to_bits_pow (b / 2 ^ 24) (b % 2 ^ 24) (by omega) (by omega)
        (by omega) (by omega)]
      omega

/-- Witness for C7's amended theorem at b = 0x1d00ffff: the validity test
succeeds and the round trip through bits_to_target and target_to_bits is the
identity. -/
theorem C7_bits_roundtrip_amended_witness :
    (bits_to_target 0x1d00ffff).isOk = true ∧
      target_to_bits (0xffff * 256 ^ 26) = 0x1d00ffff :=
  ⟨((C7_bits_roundtrip_amended 0x1d00ffff).1).mpr (by decide),
    (C7_bits_roundtrip_amended 0x1d00ffff).2 (by norm_num) (0xffff * 256 ^ 26) rfl⟩

/-- C8: parse_output raises SerializationError whenever the decoded 64-bit
output value is negative or exceeds COIN*TOTAL_SUPPLY (the money_limit
parameter), and deserialize raises SerializationError whenever the body
parses completely but unread bytes remain. -/
theorem C8_output_range_and_trailing_junk (money_limit : Int)
    (get_addr : List Nat → Nat × String) :
    (∀ (s s1 : BCDataStream) (i : Nat) (v : Int),
      read_int64 s = .ok (v, s1) → money_limit < v ∨ v < 0 →
      ∃ msg, parse_output money_limit get_addr s i = .error msg) ∧
    (∀ (raw body : List Nat) (isP : Bool) (d : TxParsed) (s : BCDataStream),
      strip_partial raw = .ok (isP, body) →
      deserialize_core money_limit get_addr isP
          { input := body, read_cursor := 0 } = .ok (d, s) →
      s.read_cursor < s.input.length →
      deserialize money_limit get_addr raw = .error "extra junk at the end") := by
  constructor
  · intro s s1 i v hv hbad
    rw [parse_output]
    simp only [hv, except_bind_ok]
    by_cases hlim : money_limit < v
    · rw [if_pos hlim]
      exact ⟨_, rfl⟩
    · have hneg : v < 0 := by
        rcases hbad with h | h
        · exact absurd h hlim
        · exact h
      rw [if_neg hlim, if_pos hneg]
      exact ⟨_, rfl⟩
  · intro raw body isP d s hstrip hcore hjunk
    rw [deserialize]
    simp only [hstrip, except_bind_ok, hcore]
    have hne : ¬ s.input.isEmpty := by
      cases hi : s.input
      · rw [hi] at hjunk
        simp at hjunk
      · simp
    have hcan : can_read_more s = true := by
      rw [can_read_more]
      simp [hne, hjunk]
    simp [hcan]
    rfl

/-- Witness for C8: a stream holding the 8-byte two's-complement encoding of
-1 makes parse_output fail, and a minimal version-1 transaction with one
trailing byte makes deserialize fail with the extra-junk error. -/
theorem C8_output_range_and_trailing_junk_witness :
    (∃ msg, parse_output 2100000000000000 (fun _ => (2, "addr"))
        { input := List.replicate 8 255, read_cursor := 0 } 0 = .error msg) ∧
    deserialize 2100000000000000 (fun _ => (2, "addr"))
        [1, 0, 0, 0, 0, 0, 0, 0, 0, 0, 99] = .error "extra junk at the end" :=
  ⟨(C8_output_range_and_trailing_junk 2100000000000000 (fun _ => (2, "addr"))).1
      { input := List.replicate 8 255, read_cursor := 0 }
      { input := List.replicate 8 255, read_cursor := 8 } 0 (-1) (by rfl)
      (Or.inr (by norm_num)),
    (C8_output_range_and_trailing_junk 2100000000000000 (fun _ => (2, "addr"))).2
      [1, 0, 0, 0, 0, 0, 0, 0, 0, 0, 99] [1, 0, 0, 0, 0, 0, 0, 0, 0, 0, 99] false
      { partialFlag := false, overwintered := false, version := 1,
        versionGroupId := none, saplinged := false, segwit_ser := false,
        inputs := [], outputs := [], lockTime := 0, expiryHeight := none,
        saplingRaw := none, valueBalance := none, shieldedSpend := [],
        shieldedOutput := [], joinSplitsRaw := none, n_JSDescs := none,
        joinSplits := [], joinSplitPubKey := none, joinSplitSig := none,
        bindingSig := none }
      { input := [1, 0, 0, 0, 0, 0, 0, 0, 0, 0, 99], read_cursor := 10 }
      (by rfl) (by rfl) (by norm_num)⟩

/-- C9 counterexample: a version-4 header at a height at or above
SAPLING_HEIGHT (here SAPLING_HEIGHT = 10 and block_height = 10) serializes to
80 bytes, because the finalsapling root is appended only for version >= 5;
deserialize_header at that height demands 112 bytes and raises InvalidHeader,
so deserialize(serialize(h), h.block_height) does not return h even though
h.version is 4 (the claim's post-Sapling case). -/
theorem C9_header_roundtrip_counterexample :
    serialize_header
        { version := 4, prev_block_hash := List.replicate 32 0,
          merkle_root := List.replicate 32 0, timestamp := 0, bits := 0,
          nonce := 0, finalsapling_root := none, block_height := 10 } =
      .ok (4 :: List.replicate 79 0) ∧
    deserialize_header 10 (4 :: List.replicate 79 0) 10 =
      .error "Invalid header length" :=
  ⟨rfl, rfl⟩

/-- C9 amended: for every version-1 or version-4 header with 32-byte hash
fields, 32-bit scalar fields, no finalsapling entry, and block height below
SAPLING_HEIGHT, deserializing the serialized bytes at the header's height
returns the header unchanged; at heights at or above SAPLING_HEIGHT these
80-byte serializations are rejected instead, post-Sapling wire headers being
those of version at least 5. -/
theorem C9_header_roundtrip (S : Int) (h : Header)
    (hv : h.version = 1 ∨ h.version = 4)
    (hprev : h.prev_block_hash.length = 32)
    (hmerkle : h.merkle_root.length = 32)
    (hts : h.timestamp < 2 ^ 32) (hbits : h.bits < 2 ^ 32)
    (hnonce : h.nonce < 2 ^ 32)
    (hfsr : h.finalsapling_root = none)
    (hht : h.block_height < S) :
    (serialize_header h).bind
      (fun bs => deserialize_header S bs h.block_height) = .ok h := by
  obtain ⟨v, prev, merkle, ts, bits, nonce, fsr, bh⟩ := h
  simp only at hv hprev hmerkle hts hbits hnonce hfsr hht
  subst hfsr
  have hv32 : v < 2 ^ 32 := by rcases hv with rfl | rfl <;> norm_num
  have hv5 : ¬ 5 ≤ v := by rcases hv with rfl | rfl <;> norm_num
  rw [serialize_header]
  simp only [if_neg hv5, Except.bind, List.append_assoc]
  set s := toLE 4 v ++ (prev.reverse ++ (merkle.reverse ++
    (toLE 4 ts ++ (toLE 4 bits ++ toLE 4 nonce)))) with hs
  have hslen : s.length = 80 := by
    simp [hs, toLE_length, hprev, hmerkle]
  have hd4 : s.drop 4 = prev.reverse ++ (merkle.reverse ++
      (toLE 4 ts ++ (toLE 4 bits ++ toLE 4 nonce))) := by
    rw [hs]
    exact List.drop_left' (toLE_length 4 v)
  have hd36 : s.drop 36 = merkle.reverse ++
      (toLE 4 ts ++ (toLE 4 bits ++ toLE 4 nonce)) := by
    have h32 : s.drop 36 = (s.drop 4).drop 32 := by
      rw [List.drop_drop]
    rw [h32, hd4]
    exact List.drop_left' (by simp [hprev])
  have hd68 : s.drop 68 = toLE 4 ts ++ (toLE 4 bits ++ toLE 4 nonce) := by
    have h32 : s.drop 68 = (s.drop 36).drop 32 := by
      rw [List.drop_drop]
    rw [h32, hd36]
    exact List.drop_left' (by simp [hmerkle])
  have hd72 : s.drop 72 = toLE 4 bits ++ toLE 4 nonce := by
    have h4 : s.drop 72 = (s.drop 68).drop 4 := by
      rw [List.drop_drop]
    rw [h4, hd68]
    exact List.drop_left' (toLE_length 4 ts)
  have hd76 : s.drop 76 = toLE 4 nonce := by
    have h4 : s.drop 76 = (s.drop 72).drop 4 := by
      rw [List.drop_drop]
    rw [h4, hd72, List.drop_left' (toLE_length 4 bits)]
  have hp0 : pyslice 0 4 s = toLE 4 v := by
    rw [pyslice, List.drop_zero, hs]
    exact List.take_left' (toLE_length 4 v)
  have hp4 : pyslice 4 36 s = prev.reverse := by
    rw [pyslice, show 36 - 4 = 32 from rfl, hd4]
    exact List.take_left' (by simp [hprev])
  have hp36 : pyslice 36 68 s = merkle.reverse := by
    rw [pyslice, show 68 - 36 = 32 from rfl, hd36]
    exact List.take_left' (by simp [hmerkle])
  have hp68 : pyslice 68 72 s = toLE 4 ts := by
    rw [pyslice, show 72 - 68 = 4 from rfl, hd68]
    exact List.take_left' (toLE_length 4 ts)
  have hp72 : pyslice 72 76 s = toLE 4 bits := by
    rw [pyslice, show 76 - 72 = 4 from rfl, hd72]
    exact List.take_left' (toLE_length 4 bits)
  have hp76 : pyslice 76 80 s = toLE 4 nonce := by
    rw [pyslice, show 80 - 76 = 4 from rfl, hd76]
    exact List.take_of_length_le (by rw [toLE_length])
  have hsne : ¬ s.isEmpty = true := by
    intro hnil
    rw [List.isEmpty_iff] at hnil
    rw [hnil] at hslen
    exact absurd hslen (by norm_num)
  rw [deserialize_header, if_neg hsne,
    if_neg (by simp [hslen]), if_neg (by simp [hht])]
  simp only [hp0, hp4, hp36, hp68, hp72, hp76, List.reverse_reverse,
    leNum_toLE 4 v (by norm_num at hv32 ⊢; omega),
    leNum_toLE 4 ts (by norm_num at hts ⊢; omega),
    leNum_toLE 4 bits (by norm_num at hbits ⊢; omega),
    leNum_toLE 4 nonce (by norm_num at hnonce ⊢; omega),
    if_neg hv5]

/-- Witness for C9's amended round trip on a concrete version-4 header at
height 3 with SAPLING_HEIGHT 5. -/
theorem C9_header_roundtrip_witness :
    (serialize_header
        { version := 4, prev_block_hash := List.replicate 32 1,
          merkle_root := List.replicate 32 2, timestamp := 7, bits := 0x1d00ffff,
          nonce := 9, finalsapling_root := none, block_height := 3 }).bind
      (fun bs => deserialize_header 5 bs 3) =
    .ok { version := 4, prev_block_hash := List.replicate 32 1,
          merkle_root := List.replicate 32 2, timestamp := 7, bits := 0x1d00ffff,
          nonce := 9, finalsapling_root := none, block_height := 3 } :=
  C9_header_roundtrip 5 _ (Or.inr rfl) (by decide) (by decide) (by norm_num)
    (by norm_num) (by norm_num) rfl (by norm_num)

/-- C10: read_header returns None for every negative height, whatever the
chain's forkpoint, size, file or parent: no delegation, no file access, no
error. -/
theorem C10_read_header_negative (S : Int) (c : ChainT) (h : Int) (hneg : h < 0) :
    read_header S c h = .ok none := by
  cases c with
  | mk f sz fl p =>
    rw [read_header.eq_def]
    simp only [if_pos hneg]

/-- Witness for C10 at the virtual pre-genesis height -1. -/
theorem C10_read_header_negative_witness :
    (-1 : Int) < 0 ∧
      read_header 100 (ChainT.mk 0 1 (some (List.replicate 80 1)) none) (-1) = .ok none :=
  ⟨by decide, C10_read_header_negative 100 _ _ (by decide)⟩

/-- C5: at heights 20, 22 and 26 verify_header returns with no error for every
hash primitive, every network constant, every prev_hash, target and expected
header hash: all checks are skipped. -/
theorem C5_bypass_heights (sha256d : List Nat → List Nat)
    (yescrypt_pow : List Nat → Nat → List Nat)
    (num_checkpoints : Nat) (sapling_height : Int) (testnet : Bool)
    (header : Header) (prev_hash : List Nat) (target : Nat)
    (expected_header_hash : Option (List Nat))
    (hh : header.block_height = 20 ∨ header.block_height = 22 ∨ header.block_height = 26) :
    verify_header sha256d yescrypt_pow num_checkpoints sapling_height testnet
      header prev_hash target expected_header_hash = .ok () := by
  rcases hh with h | h | h <;> simp [verify_header, h, pure, Except.pure]

/-- C2: past the checkpoint warm-up, get_target_koto computes exactly the
claim's formula: the adjusted timespan is targetTimespan + adj with
d = median(height-1) - median(height-18) minus targetTimespan, adj the floor
quotient d/4 corrected by +1 when d < 0 and d % 4 != 0, clamped to
[1020*84/100, 1020*132/100] with targetTimespan = 17*60 = 1020. -/
theorem C2_get_target_koto_damp (num_checkpoints : Nat)
    (chain read_h : Int → Option Header) (height : Int)
    (_hwarm : (num_checkpoints : Int) * 2016 + 28 ≤ height) :
    get_target_koto num_checkpoints chain read_h height =
      get_target_koto_spec num_checkpoints chain read_h height := by
  have hmed : height - 1 - 17 = height - 18 := by ring
  have hadj : ∀ d : Int, adjusted_timespan d =
      min (Int.fdiv (1020 * 132) 100) (max (Int.fdiv (1020 * 84) 100)
        (1020 + (Int.fdiv (d - 1020) 4 +
          (if d - 1020 < 0 ∧ Int.emod (d - 1020) 4 ≠ 0 then 1 else 0)))) := by
    intro d
    rw [adjusted_timespan]
    norm_num
    split_ifs with hc <;> omega
  simp only [get_target_koto, get_target_koto_spec, hmed, hadj]
  norm_num

/-- Witness for C2 at the first post-warm-up height with no checkpoints. -/
theorem C2_get_target_koto_damp_witness :
    get_target_koto 0 (fun _ => none) (fun _ => none) 28 =
      get_target_koto_spec 0 (fun _ => none) (fun _ => none) 28 :=
  C2_get_target_koto_damp 0 (fun _ => none) (fun _ => none) 28 (by norm_num)

/-- C1: for every overwintered transaction and every in-range input index,
serialize_preimage produces exactly the claim's concatenation: version word
with top bit set, version group id, the three personalized BLAKE2b digests of
the concatenated outpoints, sequences and serialized outputs, 32 zero bytes
for the JoinSplits hash (no JoinSplits are signed here), the shielded-hash
pair exactly when saplinged, locktime, expiry height, valueBalance exactly
when saplinged, hash type, then the outpoint, scriptCode, value and sequence
of input i. -/
theorem C1_serialize_preimage_layout (blake2b : Nat → List Nat → List Nat → List Nat)
    (pay_script : TxOutput → List Nat) (preimage_script : TxIn → List Nat)
    (tx : Transaction) (i : Nat) (txin : TxIn)
    (hov : tx.overwintered = true) (hin : tx.inputs[i]? = some txin) :
    serialize_preimage blake2b pay_script preimage_script tx i =
      some (zip243_preimage blake2b pay_script preimage_script tx txin) := by
  simp only [serialize_preimage, hin, hov, if_true]
  cases hsap : tx.saplinged <;>
    simp [zip243_preimage, hsap, toLE_zero, List.append_assoc, Nat.add_comm]

/-- Witness for C1 on a one-input Sapling transaction with placeholder hash
and script functions. -/
theorem C1_serialize_preimage_layout_witness :
    serialize_preimage (fun _ _ _ => [13]) (fun _ => [14]) (fun _ => [15])
        { version := 4, overwintered := true, saplinged := true,
          versionGroupId := 0x9023E50A, expiryHeight := 120, locktime := 7,
          inputs := [{ prevout_hash := List.replicate 32 3, prevout_n := 1,
                       sequence := none, value := 50000 }],
          outputs := [{ out_type := 0, address := "k1", value := 40000 }] } 0 =
      some (zip243_preimage (fun _ _ _ => [13]) (fun _ => [14]) (fun _ => [15])
        { version := 4, overwintered := true, saplinged := true,
          versionGroupId := 0x9023E50A, expiryHeight := 120, locktime := 7,
          inputs := [{ prevout_hash := List.replicate 32 3, prevout_n := 1,
                       sequence := none, value := 50000 }],
          outputs := [{ out_type := 0, address := "k1", value := 40000 }] }
        { prevout_hash := List.replicate 32 3, prevout_n := 1,
          sequence := none, value := 50000 }) :=
  C1_serialize_preimage_layout _ _ _ _ 0 _ rfl rfl

/-- C3: a swap step returns False and leaves the entire world — header
files, both chains' forkpoint/forkpoint_hash/prev_hash/parent fields, and
the blockchains registry — unchanged when the chain has no parent or the
parent's chainwork is at least the chain's; and it performs a swap (returns
True) only when a parent exists whose chainwork is strictly below the
chain's. -/
theorem C3_swap_guard_and_frame (S : Int) (cw : World → Nat → Int)
    (hash_raw : List Nat → String) (w : World) (key : Nat)
    (self : BlockchainRec) (hself : alist_get w.chains key = some self) :
    (self.parent = none → swap_step S cw hash_raw w key = .ok (false, w)) ∧
    (∀ (pkey : Nat) (parent : BlockchainRec), self.parent = some pkey →
      alist_get w.chains pkey = some parent →
      cw w key ≤ cw w pkey →
      swap_step S cw hash_raw w key = .ok (false, w)) ∧
    (∀ w2 : World, swap_step S cw hash_raw w key = .ok (true, w2) →
      ∃ pkey : Nat, self.parent = some pkey ∧ cw w pkey < cw w key) := by
  refine ⟨?_, ?_, ?_⟩
  · intro hpar
    simp only [swap_step, hself, hpar]
  · intro pkey parent hpar hparent hle
    simp only [swap_step, hself, hpar, hparent, if_pos hle]
  · intro w2 hres
    simp only [swap_step, hself] at hres
    cases hpar : self.parent with
    | none =>
      simp only [hpar] at hres
      exact absurd hres (by simp)
    | some pkey =>
      simp only [hpar] at hres
      refine ⟨pkey, rfl, ?_⟩
      cases hparent : alist_get w.chains pkey with
      | none =>
        simp only [hparent] at hres
        exact absurd hres (by simp)
      | some parent =>
        simp only [hparent] at hres
        by_cases hle : cw w key ≤ cw w pkey
        · rw [if_pos hle] at hres
          exact absurd hres (by simp)
        · omega

/-- Witness for C3: a parentless main chain refuses to swap, and a fork
whose chainwork does not exceed its parent's refuses to swap, both leaving
the two-chain world untouched. -/
theorem C3_swap_guard_and_frame_witness :
    swap_step 100 (fun _ k => if k = 0 then 7 else 5) toString
        { chains := [(0, { forkpoint := 0, size := 3, forkpoint_hash := "aa",
                           prev_hash := none, parent := none })],
          registry := [("aa", 0)], files := [("blockchain_headers", [])] } 0 =
      .ok (false,
        { chains := [(0, { forkpoint := 0, size := 3, forkpoint_hash := "aa",
                           prev_hash := none, parent := none })],
          registry := [("aa", 0)], files := [("blockchain_headers", [])] }) ∧
    swap_step 100 (fun _ k => if k = 0 then 7 else 5) toString
        { chains := [(0, { forkpoint := 0, size := 3, forkpoint_hash := "aa",
                           prev_hash := none, parent := none }),
                     (1, { forkpoint := 2, size := 1, forkpoint_hash := "bb",
                           prev_hash := some "cc", parent := some 0 })],
          registry := [("aa", 0), ("bb", 1)],
          files := [("blockchain_headers", []), ("forks/fork2_2_cc_bb", [])] } 1 =
      .ok (false,
        { chains := [(0, { forkpoint := 0, size := 3, forkpoint_hash := "aa",
                           prev_hash := none, parent := none }),
                     (1, { forkpoint := 2, size := 1, forkpoint_hash := "bb",
                           prev_hash := some "cc", parent := some 0 })],
          registry := [("aa", 0), ("bb", 1)],
          files := [("blockchain_headers", []), ("forks/fork2_2_cc_bb", [])] }) :=
  ⟨(C3_swap_guard_and_frame 100 (fun _ k => if k = 0 then 7 else 5) toString _ 0
      { forkpoint := 0, size := 3, forkpoint_hash := "aa",
        prev_hash := none, parent := none } (by rfl)).1 rfl,
    (C3_swap_guard_and_frame 100 (fun _ k => if k = 0 then 7 else 5) toString _ 1
      { forkpoint := 2, size := 1, forkpoint_hash := "bb",
        prev_hash := some "cc", parent := some 0 } (by rfl)).2.1 0
      { forkpoint := 0, size := 3, forkpoint_hash := "aa",
        prev_hash := none, parent := none } rfl (by rfl) (by norm_num)⟩

/-- C4 counterexample: height 20 satisfies the claimed skip condition (with no
checkpoints it lies in the warm-up window 0..24; with checkpoints it is
off-boundary inside the checkpoint region), yet a prev_block_hash differing
from the supplied prev_hash raises nothing — verify_header returns without
error, because the bypass for heights 20, 22, 26 precedes the prev-hash
check. -/
theorem C4_skip_region_counterexample :
    ((Int.emod 20 2016 ≠ 0 ∧ Int.fdiv 20 2016 < ((0 : Nat) : Int)) ∨
      (((0 : Nat) : Int) * 2016 ≤ 20 ∧ (20 : Int) ≤ ((0 : Nat) : Int) * 2016 + 24)) ∧
    List.replicate 32 9 ≠ List.replicate 32 7 ∧
    verify_header (fun _ => List.replicate 32 0) (fun _ _ => List.replicate 32 0)
      0 10000 false
      { version := 1, prev_block_hash := List.replicate 32 7,
        merkle_root := List.replicate 32 0, timestamp := 0, bits := 0, nonce := 0,
        finalsapling_root := none, block_height := 20 }
      (List.replicate 32 9) 0 none = .ok () := by
  refine ⟨by decide, by decide, ?_⟩
  rfl

/-- C4 amended: for every header whose height satisfies the skip condition
and is not one of the bypass heights 20, 22, 26, the bits and proof-of-work
comparisons are skipped (the result does not depend on the target at all),
and — provided the expected-hash check that precedes it passes — a
prev_block_hash differing from the supplied prev_hash still raises the
prev-hash-mismatch error. -/
theorem C4_skip_region_amended (sha256d : List Nat → List Nat)
    (yescrypt_pow : List Nat → Nat → List Nat)
    (num_checkpoints : Nat) (sapling_height : Int) (testnet : Bool)
    (header : Header) (prev_hash : List Nat) (target target' : Nat)
    (expected_header_hash : Option (List Nat)) (sb : List Nat)
    (hser : serialize_header header = .ok sb)
    (hcond : (Int.emod header.block_height 2016 ≠ 0 ∧
        Int.fdiv header.block_height 2016 < (num_checkpoints : Int)) ∨
      ((num_checkpoints : Int) * 2016 ≤ header.block_height ∧
        header.block_height ≤ (num_checkpoints : Int) * 2016 + 24))
    (hby : ¬ (header.block_height = 20 ∨ header.block_height = 22 ∨
        header.block_height = 26)) :
    verify_header sha256d yescrypt_pow num_checkpoints sapling_height testnet
        header prev_hash target expected_header_hash =
      verify_header sha256d yescrypt_pow num_checkpoints sapling_height testnet
        header prev_hash target' expected_header_hash ∧
    ((expected_header_hash = none ∨
        expected_header_hash = some (hash_raw_header sha256d sb)) →
      prev_hash ≠ header.prev_block_hash →
      verify_header sha256d yescrypt_pow num_checkpoints sapling_height testnet
        header prev_hash target expected_header_hash =
        .error "prev hash mismatch") := by
  constructor
  · simp only [verify_header, hash_header, hser, except_map_ok, if_neg hby,
      except_bind_ok, if_pos hcond]
  · intro hexp hprev
    have hexpc : ¬ (expected_header_hash.isSome ∧
        expected_header_hash ≠ some (hash_raw_header sha256d sb)) := by
      rcases hexp with h | h <;> simp [h]
    simp only [verify_header, hash_header, hser, except_map_ok, if_neg hby,
      except_bind_ok, if_neg hexpc, if_pos hprev]
    rfl

/-- Witness for C4's amended theorem at height 21 with one checkpoint: the
result ignores the target, and a wrong prev hash raises the prev-hash
mismatch. -/
theorem C4_skip_region_amended_witness :
    verify_header (fun _ => List.replicate 32 0) (fun _ _ => List.replicate 32 0)
        1 10000 false
        { version := 1, prev_block_hash := List.replicate 32 7,
          merkle_root := List.replicate 32 0, timestamp := 0, bits := 0, nonce := 0,
          finalsapling_root := none, block_height := 21 }
        (List.replicate 32 9) 5 none =
      verify_header (fun _ => List.replicate 32 0) (fun _ _ => List.replicate 32 0)
        1 10000 false
        { version := 1, prev_block_hash := List.replicate 32 7,
          merkle_root := List.replicate 32 0, timestamp := 0, bits := 0, nonce := 0,
          finalsapling_root := none, block_height := 21 }
        (List.replicate 32 9) 77 none ∧
    verify_header (fun _ => List.replicate 32 0) (fun _ _ => List.replicate 32 0)
        1 10000 false
        { version := 1, prev_block_hash := List.replicate 32 7,
          merkle_root := List.replicate 32 0, timestamp := 0, bits := 0, nonce := 0,
          finalsapling_root := none, block_height := 21 }
        (List.replicate 32 9) 5 none = .error "prev hash mismatch" := by
  have h := C4_skip_region_amended (fun _ => List.replicate 32 0)
    (fun _ _ => List.replicate 32 0) 1 10000 false
    { version := 1, prev_block_hash := List.replicate 32 7,
      merkle_root := List.replicate 32 0, timestamp := 0, bits := 0, nonce := 0,
      finalsapling_root := none, block_height := 21 }
    (List.replicate 32 9) 5 77 none _ rfl (by decide) (by decide)
  exact ⟨h.1, h.2 (Or.inl rfl) (by decide)⟩

/-- Witness for C5: a header at height 22 with a deliberately wrong prev hash,
wrong bits and an absurd expected hash still verifies. -/
theorem C5_bypass_heights_witness :
    verify_header (fun _ => List.replicate 32 0) (fun _ _ => List.replicate 32 0)
      5 100 false
      { version := 4, prev_block_hash := List.replicate 32 7,
        merkle_root := List.replicate 32 0, timestamp := 0, bits := 0, nonce := 0,
        finalsapling_root := none, block_height := 22 }
      (List.replicate 32 9) 0 (some [1, 2, 3]) = .ok () :=
  C5_bypass_heights _ _ _ _ _ _ _ _ _ (by simp)

